import Mathlib

/-!
Verification development for the pebble-dice core (src/src/model.c,
src/src/state.c, src/src/roll_anim.c).

The C code is shallowly embedded: C `int` becomes `Int` (C truncated `%`
becomes `Int.tmod`), fixed-size C arrays become Lean lists (the `groups`
array together with its `group_count` counter is modelled as a list whose
length is the group count; each group's `results` array keeps its fixed
length `MAX_RESULTS_PER_GROUP`), and the global `s_ctx` of state.c becomes
an explicit `StateContext` record threaded through the handlers.  The
platform timer / animator machinery is modelled by the synchronous call
graph of state.c plus a `RollEvent` trace recording every
`roll_anim_start` call and every committed die; `rand()` is modelled as an
explicit stream of sampled integers.  Recursion through the roll loop
(`prv_start_next_die` calls itself while a skip is requested) is expressed
with an explicit fuel parameter; theorems supply enough fuel for the loop
to run to completion.
-/

-- ---------------------------------------------------------------------------
-- model.h constants and the die-definition table (src/src/model.c lines 20-44)
-- ---------------------------------------------------------------------------

def MAX_DICE_GROUPS : Int := 8

def MAX_DICE_PER_GROUP : Int := 10

def MAX_RESULTS_PER_GROUP : Nat := 10

/-- DiceKind enumerators, by their C enum values. -/
def DICE_KIND_D4 : Int := 0

def DICE_KIND_D6 : Int := 1

def DICE_KIND_D8 : Int := 2

def DICE_KIND_D10 : Int := 3

def DICE_KIND_D12 : Int := 4

def DICE_KIND_D20 : Int := 5

def DICE_KIND_D100 : Int := 6

def DICE_KIND_PERCENTILE : Int := 7

def DICE_KIND_COUNT : Int := 8

structure DieDefinition where
  display_sides : Int
  roll_sides : Int
  label : String
  zero_based : Bool
  tens_mode : Bool
deriving DecidableEq, Repr

/-- The static s_die_defs table of model.c, in enum order. -/
def s_die_defs : List DieDefinition :=
  [ { display_sides := 4, roll_sides := 4, label := "d4", zero_based := false, tens_mode := false },
    { display_sides := 6, roll_sides := 6, label := "d6", zero_based := false, tens_mode := false },
    { display_sides := 8, roll_sides := 8, label := "d8", zero_based := false, tens_mode := false },
    { display_sides := 10, roll_sides := 10, label := "d10", zero_based := false, tens_mode := false },
    { display_sides := 12, roll_sides := 12, label := "d12", zero_based := false, tens_mode := false },
    { display_sides := 20, roll_sides := 20, label := "d20", zero_based := false, tens_mode := false },
    { display_sides := 100, roll_sides := 10, label := "d100", zero_based := true, tens_mode := true },
    { display_sides := 100, roll_sides := 100, label := "d%", zero_based := true, tens_mode := false } ]

def prv_die_def_at_index (index : Int) : Option DieDefinition :=
  if index < 0 ∨ DICE_KIND_COUNT ≤ index then none
  else s_die_defs[index.toNat]?

-- ---------------------------------------------------------------------------
-- DiceGroup / DiceModel (src/src/model.h lines 21-37)
-- ---------------------------------------------------------------------------

structure DiceGroup where
  sides : Int
  count : Int
  results : List Int
  die_def_index : Int
deriving DecidableEq, Repr

/-- A zeroed DiceGroup slot (the all-zero bytes of an unused array entry),
used as the out-of-range default for list lookups. -/
def emptyGroup : DiceGroup :=
  { sides := 0, count := 0, results := List.replicate MAX_RESULTS_PER_GROUP 0, die_def_index := 0 }

structure DiceModel where
  groups : List DiceGroup
  selected_die_index : Int
  selected_count : Int
  roll_group_index : Int
  roll_die_index : Int
deriving DecidableEq, Repr

/-- The all-zero DiceModel produced by memset (model_init before it sets the
default selection, and the zeroed saved_model slot of state.c). -/
def zeroModel : DiceModel :=
  { groups := [], selected_die_index := 0, selected_count := 0,
    roll_group_index := 0, roll_die_index := 0 }

-- ---------------------------------------------------------------------------
-- Selection helpers (src/src/model.c lines 46-110)
-- ---------------------------------------------------------------------------

def prv_clamp_selection (m : DiceModel) : DiceModel :=
  let m :=
    if m.selected_die_index < 0 then { m with selected_die_index := 0 }
    else if DICE_KIND_COUNT ≤ m.selected_die_index then
      { m with selected_die_index := DICE_KIND_COUNT - 1 }
    else m
  if m.selected_count < 1 then { m with selected_count := 1 }
  else if MAX_DICE_PER_GROUP < m.selected_count then { m with selected_count := MAX_DICE_PER_GROUP }
  else m

def model_init : DiceModel :=
  { zeroModel with selected_die_index := DICE_KIND_D6, selected_count := 1 }

/-- model_increment_selected_die; the C function also returns the new kind's
display sides, which every caller in state.c discards, so the embedding
returns just the updated model.  C's `%` on int is truncated modulo, i.e.
`Int.tmod`. -/
def model_increment_selected_die (m : DiceModel) (delta : Int) : DiceModel :=
  { m with selected_die_index :=
      (m.selected_die_index + DICE_KIND_COUNT + delta).tmod DICE_KIND_COUNT }

/-- model_increment_selected_count; the returned count is likewise discarded
by all callers. -/
def model_increment_selected_count (m : DiceModel) (delta : Int) : DiceModel :=
  prv_clamp_selection { m with selected_count := m.selected_count + delta }

def model_get_selected_sides (m : DiceModel) : Int :=
  match prv_die_def_at_index m.selected_die_index with
  | none => 0
  | some d => d.display_sides

def model_get_selected_label (m : DiceModel) : String :=
  match prv_die_def_at_index m.selected_die_index with
  | none => "d?"
  | some d => d.label

-- ---------------------------------------------------------------------------
-- Configuration model (src/src/model.c lines 115-137)
-- ---------------------------------------------------------------------------

/-- model_commit_group: returns the C bool result paired with the updated
model.  On capacity failure the model is returned untouched (the C function
returns before any mutation). -/
def model_commit_group (m : DiceModel) : Bool × DiceModel :=
  if MAX_DICE_GROUPS ≤ (m.groups.length : Int) then (false, m)
  else
    (true,
      { m with groups := m.groups ++
          [{ die_def_index := m.selected_die_index,
             sides := model_get_selected_sides m,
             count := m.selected_count,
             results := List.replicate MAX_RESULTS_PER_GROUP 0 }] })

def model_clear_groups (m : DiceModel) : DiceModel :=
  { m with groups := [], roll_group_index := 0, roll_die_index := 0 }

def model_has_groups (m : DiceModel) : Bool :=
  0 < m.groups.length

def model_reset_selection_count (m : DiceModel) : DiceModel :=
  prv_clamp_selection { m with selected_count := 1 }

-- ---------------------------------------------------------------------------
-- Rolling helpers (src/src/model.c lines 142-266)
-- ---------------------------------------------------------------------------

def model_begin_roll (m : DiceModel) : DiceModel :=
  { m with groups := m.groups.map (fun g => { g with results := List.replicate MAX_RESULTS_PER_GROUP 0 }),
           roll_group_index := 0, roll_die_index := 0 }

def model_has_roll_remaining (m : DiceModel) : Bool :=
  m.roll_group_index < (m.groups.length : Int)

def model_group_sides (g : DiceGroup) : Int :=
  g.sides

def model_current_roll_sides (m : DiceModel) : Int :=
  if model_has_roll_remaining m then
    model_group_sides (m.groups.getD m.roll_group_index.toNat emptyGroup)
  else 0

def model_current_roll_kind (m : DiceModel) : Int :=
  if model_has_roll_remaining m then
    (m.groups.getD m.roll_group_index.toNat emptyGroup).die_def_index
  else DICE_KIND_D6

def model_kind_roll_sides (kind : Int) : Int :=
  match prv_die_def_at_index kind with
  | none => 0
  | some d => d.roll_sides

def model_kind_zero_based (kind : Int) : Bool :=
  match prv_die_def_at_index kind with
  | none => false
  | some d => d.zero_based

def model_kind_tens_mode (kind : Int) : Bool :=
  match prv_die_def_at_index kind with
  | none => false
  | some d => d.tens_mode

def model_current_roll_range (m : DiceModel) : Int :=
  if model_has_roll_remaining m then
    model_kind_roll_sides (model_current_roll_kind m)
  else 0

/-- model_commit_roll_result (src/src/model.c lines 169-183): no-op when the
roll is complete; otherwise writes the value into the current die's slot if
the die index is within the group's count, then advances the cursor. -/
def model_commit_roll_result (m : DiceModel) (value : Int) : DiceModel :=
  if model_has_roll_remaining m then
    let gi := m.roll_group_index.toNat
    let group := m.groups.getD gi emptyGroup
    let group1 :=
      if m.roll_die_index < group.count then
        { group with results := group.results.set m.roll_die_index.toNat value }
      else group
    if group.count ≤ m.roll_die_index + 1 then
      { m with groups := m.groups.set gi group1,
               roll_group_index := m.roll_group_index + 1,
               roll_die_index := 0 }
    else
      { m with groups := m.groups.set gi group1,
               roll_die_index := m.roll_die_index + 1 }
  else m

def model_roll_completed_dice (m : DiceModel) : Int :=
  (((m.groups.take m.roll_group_index.toNat).map (fun g => g.count)).sum) + m.roll_die_index

def model_roll_total_dice (m : DiceModel) : Int :=
  ((m.groups.map (fun g => g.count)).sum)

def model_group_count (m : DiceModel) : Int :=
  (m.groups.length : Int)

-- ---------------------------------------------------------------------------
-- state.h / state.c embedding
-- ---------------------------------------------------------------------------

inductive AppState where
  | PICK_DIE
  | PICK_COUNT
  | ADD_GROUP_PROMPT
  | ROLLING
  | RESULTS
deriving DecidableEq, Repr

/-- The mutable global StateContext of state.c (lines 36-53).  The animator
module's global (roll_anim.c) is abstracted to the two facts state.c relies
on through its public interface: whether an animation is running and the
range it was started with; its tick/stage bookkeeping never feeds back into
the state machine except through the preview/complete callbacks, which the
embedding models directly.  A pending AppTimer handle is modelled as the
boolean "a timer is armed". -/
structure StateContext where
  current_state : AppState
  model : DiceModel
  rolling_value : Int
  skip_requested : Bool
  quick_roll_active : Bool
  has_saved_model : Bool
  saved_model : DiceModel
  result_hold_timer : Bool
  confirm_clear_prompt : Bool
  roll_kind : Int
  roll_range : Int
  roll_zero_based : Bool
  roll_tens_mode : Bool
  anim_running : Bool
  anim_sides : Int
deriving DecidableEq, Repr

/-- Observable side effects of a run through the roll orchestrator: each
roll_anim_start call (beginning a staged animation whose timer ticks would
invoke the stage-preview callback) and each die committed into the model. -/
inductive RollEvent where
  | animStart (range : Int)
  | commitEv (value : Int)
deriving DecidableEq, Repr

/-- Pop one value off the modelled rand() stream (an exhausted stream keeps
returning 0; the theorems never depend on the sampled values). -/
def takeRand : List Int → Int × List Int
  | [] => (0, [])
  | r :: rs => (r, rs)

/-- prv_random_roll of roll_anim.c (lines 54-59), applied to one rand()
sample r. -/
def prv_random_roll (sides r : Int) : Int :=
  if sides ≤ 0 then 0 else r.tmod sides + 1

def prv_set_state (ctx : StateContext) (new_state : AppState) : StateContext :=
  if ctx.current_state = new_state then ctx
  else
    let ctx :=
      if new_state ≠ AppState.ADD_GROUP_PROMPT then { ctx with confirm_clear_prompt := false }
      else ctx
    { ctx with current_state := new_state }

/-- prv_prepare_roll_metadata (state.c lines 106-117). -/
def prv_prepare_roll_metadata (ctx : StateContext) : StateContext :=
  let kind := model_current_roll_kind ctx.model
  let range0 := model_current_roll_range ctx.model
  let range1 := if range0 ≤ 0 then model_current_roll_sides ctx.model else range0
  let range2 := if range1 ≤ 0 then 1 else range1
  { ctx with roll_kind := kind, roll_range := range2,
             roll_zero_based := model_kind_zero_based kind,
             roll_tens_mode := model_kind_tens_mode kind }

/-- prv_normalize_roll_value (state.c lines 119-134); the C function reads
the s_ctx.roll_zero_based / s_ctx.roll_tens_mode globals, passed here as
the first two arguments. -/
def prv_normalize_roll_value (zero_based tens_mode : Bool) (raw_value : Int) : Int :=
  if raw_value ≤ 0 then 0
  else
    let value := raw_value
    let value := if zero_based then (if raw_value - 1 < 0 then 0 else raw_value - 1) else value
    if tens_mode then value * 10 else value

/-- prv_random_result_value (state.c lines 136-142), applied to one rand()
sample r. -/
def prv_random_result_value (ctx : StateContext) (r : Int) : Int :=
  if ctx.roll_range ≤ 0 then 0
  else prv_normalize_roll_value ctx.roll_zero_based ctx.roll_tens_mode (r.tmod ctx.roll_range + 1)

/-- prv_commit_result (state.c lines 199-207); the APP_LOG is pure logging. -/
def prv_commit_result (ctx : StateContext) (value : Int) : StateContext :=
  { ctx with model := model_commit_roll_result ctx.model value, rolling_value := value }

/-- prv_anim_preview (state.c lines 194-197). -/
def prv_anim_preview (ctx : StateContext) (value : Int) : StateContext :=
  { ctx with rolling_value := prv_normalize_roll_value ctx.roll_zero_based ctx.roll_tens_mode value }

def prv_finish_roll (ctx : StateContext) : StateContext :=
  prv_set_state { ctx with result_hold_timer := false, skip_requested := false } AppState.RESULTS

/-- prv_start_next_die (state.c lines 236-256).  The recursion in the
skip-requested branch is bounded by an explicit fuel parameter; with fuel 0
the function stops (the theorems always supply more fuel than the remaining
die count, so this clause is never reached on their runs).  Output: updated
context, remaining rand() stream, emitted events. -/
def prv_start_next_die : Nat → StateContext → List Int → StateContext × List Int × List RollEvent
  | 0, ctx, rs => (ctx, rs, [])
  | fuel + 1, ctx, rs =>
    let ctx := { ctx with result_hold_timer := false }
    if model_has_roll_remaining ctx.model then
      let ctx := prv_prepare_roll_metadata ctx
      let ctx := { ctx with rolling_value := -1 }
      if ctx.skip_requested then
        let (r, rs) := takeRand rs
        let result := prv_random_result_value ctx r
        let ctx := prv_commit_result ctx result
        let (ctx1, rs1, evs) := prv_start_next_die fuel ctx rs
        (ctx1, rs1, RollEvent.commitEv result :: evs)
      else
        let range := if 0 < ctx.roll_range then ctx.roll_range else 1
        ({ ctx with anim_running := true, anim_sides := range }, rs, [RollEvent.animStart range])
    else
      (prv_finish_roll ctx, rs, [])

/-- prv_after_result (state.c lines 328-335). -/
def prv_after_result (fuel : Nat) (ctx : StateContext) (rs : List Int) :
    StateContext × List Int × List RollEvent :=
  if ctx.skip_requested then prv_start_next_die fuel ctx rs
  else ({ ctx with result_hold_timer := true }, rs, [])

/-- prv_anim_complete (state.c lines 209-213): normalize the animator's
final value, commit it, then run prv_after_result. -/
def prv_anim_complete (fuel : Nat) (ctx : StateContext) (value : Int) (rs : List Int) :
    StateContext × List Int × List RollEvent :=
  let adjusted := prv_normalize_roll_value ctx.roll_zero_based ctx.roll_tens_mode value
  let ctx := prv_commit_result ctx adjusted
  let (ctx1, rs1, evs) := prv_after_result fuel ctx rs
  (ctx1, rs1, RollEvent.commitEv adjusted :: evs)

/-- roll_anim_skip (roll_anim.c lines 176-195): sample one value, invoke the
preview then the completion callback synchronously, then mark the animation
finished. -/
def roll_anim_skip (fuel : Nat) (ctx : StateContext) (rs : List Int) :
    StateContext × List Int × List RollEvent :=
  if ctx.anim_running then
    let (r, rs) := takeRand rs
    let result := prv_random_roll ctx.anim_sides r
    let ctx := prv_anim_preview ctx result
    let (ctx1, rs1, evs) := prv_anim_complete fuel ctx result rs
    ({ ctx1 with anim_running := false }, rs1, evs)
  else (ctx, rs, [])

/-- The animator's hold-phase expiry (roll_anim.c lines 77-84): fire the
completion callback with the pending final value, then finish. -/
def roll_anim_fire_complete (fuel : Nat) (ctx : StateContext) (value : Int) (rs : List Int) :
    StateContext × List Int × List RollEvent :=
  let (ctx1, rs1, evs) := prv_anim_complete fuel ctx value rs
  ({ ctx1 with anim_running := false }, rs1, evs)

/-- prv_result_hold_timer_cb (state.c lines 323-326). -/
def prv_result_hold_timer_cb (fuel : Nat) (ctx : StateContext) (rs : List Int) :
    StateContext × List Int × List RollEvent :=
  prv_start_next_die fuel { ctx with result_hold_timer := false } rs

/-- prv_set_skip_requested (state.c lines 215-232). -/
def prv_set_skip_requested (fuel : Nat) (ctx : StateContext) (rs : List Int) :
    StateContext × List Int × List RollEvent :=
  if ctx.current_state ≠ AppState.ROLLING then (ctx, rs, [])
  else if ctx.skip_requested then (ctx, rs, [])
  else
    let ctx := { ctx with skip_requested := true }
    let (ctx1, rs1, evs1) :=
      if ctx.result_hold_timer then
        prv_start_next_die fuel { ctx with result_hold_timer := false } rs
      else (ctx, rs, [])
    if ctx1.anim_running then
      let (ctx2, rs2, evs2) := roll_anim_skip fuel ctx1 rs1
      (ctx2, rs2, evs1 ++ evs2)
    else (ctx1, rs1, evs1)

/-- prv_begin_roll (state.c lines 264-276). -/
def prv_begin_roll (fuel : Nat) (ctx : StateContext) (rs : List Int) :
    StateContext × List Int × List RollEvent :=
  if model_has_groups ctx.model then
    let ctx := { ctx with result_hold_timer := false }
    let ctx := { ctx with model := model_begin_roll ctx.model,
                          skip_requested := false, rolling_value := -1 }
    let ctx := prv_set_state ctx AppState.ROLLING
    prv_start_next_die fuel ctx rs
  else (ctx, rs, [])

/-- prv_restore_saved_model (state.c lines 278-287). -/
def prv_restore_saved_model (ctx : StateContext) : StateContext :=
  if ¬ ctx.quick_roll_active ∨ ¬ ctx.has_saved_model then ctx
  else
    { ctx with model := ctx.saved_model,
               quick_roll_active := false, has_saved_model := false }

/-- prv_begin_quick_roll (state.c lines 289-314). -/
def prv_begin_quick_roll (fuel : Nat) (ctx : StateContext) (rs : List Int) :
    StateContext × List Int × List RollEvent :=
  if ctx.quick_roll_active then (ctx, rs, [])
  else
    let ctx := { ctx with saved_model := ctx.model,
                          has_saved_model := true, quick_roll_active := true }
    let selected_index := ctx.model.selected_die_index
    let selected_count : Int :=
      if ctx.current_state = AppState.PICK_COUNT then ctx.model.selected_count else 1
    let ctx := { ctx with model :=
        { ctx.model with selected_die_index := selected_index,
                         selected_count := selected_count } }
    match model_commit_group ctx.model with
    | (false, _) =>
        ({ ctx with quick_roll_active := false, has_saved_model := false,
                    model := ctx.saved_model }, rs, [])
    | (true, m) => prv_begin_roll fuel { ctx with model := m } rs

/-- prv_rewind_last_group (state.c lines 337-347). -/
def prv_rewind_last_group (m : DiceModel) : Bool × DiceModel :=
  if m.groups.length = 0 then (false, m)
  else
    let last := m.groups.getD (m.groups.length - 1) emptyGroup
    (true, { m with groups := m.groups.dropLast,
                    selected_die_index := last.die_def_index,
                    selected_count := last.count })

/-- The StateContext right after state_init (state.c lines 349-365): memset
to zero, model_init, rolling_value := -1, then prv_set_state(PICK_DIE)
(a no-op transition since the zeroed enum already is PICK_DIE). -/
def initialContext : StateContext :=
  { current_state := AppState.PICK_DIE,
    model := model_init,
    rolling_value := -1,
    skip_requested := false,
    quick_roll_active := false,
    has_saved_model := false,
    saved_model := zeroModel,
    result_hold_timer := false,
    confirm_clear_prompt := false,
    roll_kind := 0,
    roll_range := 0,
    roll_zero_based := false,
    roll_tens_mode := false,
    anim_running := false,
    anim_sides := 0 }

-- ---------------------------------------------------------------------------
-- Input handlers (state.c lines 377-516).  window_stack_pop and the
-- ui_scroll_* calls go to the excluded rendering layer and leave the
-- context untouched.
-- ---------------------------------------------------------------------------

def state_handle_select (fuel : Nat) (ctx : StateContext) (rs : List Int) :
    StateContext × List Int × List RollEvent :=
  match ctx.current_state with
  | AppState.PICK_DIE =>
      let ctx := { ctx with model := model_reset_selection_count ctx.model }
      (prv_set_state ctx AppState.PICK_COUNT, rs, [])
  | AppState.PICK_COUNT =>
      match model_commit_group ctx.model with
      | (true, m) =>
          let ctx := { ctx with model := model_reset_selection_count m }
          (prv_set_state ctx AppState.ADD_GROUP_PROMPT, rs, [])
      | (false, m) => ({ ctx with model := m }, rs, [])
  | AppState.ADD_GROUP_PROMPT =>
      let ctx :=
        if ctx.confirm_clear_prompt then
          { ctx with model := model_reset_selection_count (model_clear_groups ctx.model),
                     confirm_clear_prompt := false }
        else ctx
      (prv_set_state ctx AppState.PICK_DIE, rs, [])
  | AppState.ROLLING => prv_set_skip_requested fuel ctx rs
  | AppState.RESULTS =>
      let ctx := prv_restore_saved_model ctx
      let ctx := { ctx with model := model_reset_selection_count (model_clear_groups ctx.model) }
      (prv_set_state ctx AppState.PICK_DIE, rs, [])

def state_handle_back (fuel : Nat) (ctx : StateContext) (rs : List Int) :
    StateContext × List Int × List RollEvent :=
  match ctx.current_state with
  | AppState.PICK_DIE =>
      if model_has_groups ctx.model then (prv_set_state ctx AppState.ADD_GROUP_PROMPT, rs, [])
      else (ctx, rs, [])
  | AppState.PICK_COUNT => (prv_set_state ctx AppState.PICK_DIE, rs, [])
  | AppState.ADD_GROUP_PROMPT =>
      if ctx.confirm_clear_prompt then ({ ctx with confirm_clear_prompt := false }, rs, [])
      else
        match prv_rewind_last_group ctx.model with
        | (true, m) => (prv_set_state { ctx with model := m } AppState.PICK_COUNT, rs, [])
        | (false, m) => (prv_set_state { ctx with model := m } AppState.PICK_DIE, rs, [])
  | AppState.ROLLING => prv_set_skip_requested fuel ctx rs
  | AppState.RESULTS =>
      let ctx := prv_restore_saved_model ctx
      let ctx := { ctx with model := model_reset_selection_count (model_clear_groups ctx.model) }
      (prv_set_state ctx AppState.PICK_DIE, rs, [])

def state_handle_up (fuel : Nat) (ctx : StateContext) (rs : List Int) :
    StateContext × List Int × List RollEvent :=
  match ctx.current_state with
  | AppState.PICK_DIE =>
      ({ ctx with model := model_increment_selected_die ctx.model 1 }, rs, [])
  | AppState.PICK_COUNT =>
      ({ ctx with model := model_increment_selected_count ctx.model 1 }, rs, [])
  | AppState.RESULTS =>
      if model_has_groups ctx.model then prv_begin_roll fuel ctx rs else (ctx, rs, [])
  | _ => (ctx, rs, [])

def state_handle_down (_fuel : Nat) (ctx : StateContext) (rs : List Int) :
    StateContext × List Int × List RollEvent :=
  match ctx.current_state with
  | AppState.PICK_DIE =>
      ({ ctx with model := model_increment_selected_die ctx.model (-1) }, rs, [])
  | AppState.PICK_COUNT =>
      ({ ctx with model := model_increment_selected_count ctx.model (-1) }, rs, [])
  | AppState.ADD_GROUP_PROMPT =>
      if model_has_groups ctx.model ∧ ¬ ctx.confirm_clear_prompt then
        ({ ctx with confirm_clear_prompt := true }, rs, [])
      else (ctx, rs, [])
  | _ => (ctx, rs, [])

def state_handle_tap (fuel : Nat) (ctx : StateContext) (rs : List Int) :
    StateContext × List Int × List RollEvent :=
  prv_set_skip_requested fuel ctx rs

def state_handle_select_long (fuel : Nat) (ctx : StateContext) (rs : List Int) :
    StateContext × List Int × List RollEvent :=
  if ctx.current_state = AppState.ROLLING then prv_set_skip_requested fuel ctx rs
  else if ctx.current_state = AppState.PICK_DIE ∨ ctx.current_state = AppState.PICK_COUNT then
    prv_begin_quick_roll fuel ctx rs
  else if model_has_groups ctx.model then prv_begin_roll fuel ctx rs
  else prv_begin_quick_roll fuel ctx rs

-- ---------------------------------------------------------------------------
-- Derived notions used by the theorems
-- ---------------------------------------------------------------------------

/-- Dice not yet resolved by the roll cursor. -/
def remainingDice (m : DiceModel) : Nat :=
  (model_roll_total_dice m - model_roll_completed_dice m).toNat

/-- Roll-cursor invariants maintained by the model API between beginRoll and
roll completion: the cursor stays inside the committed groups, every
committed group's count is in [1, MAX_DICE_PER_GROUP], and while a group is
in progress the die index is inside it. -/
def RollInv (m : DiceModel) : Prop :=
  0 ≤ m.roll_group_index ∧
  m.roll_group_index ≤ (m.groups.length : Int) ∧
  0 ≤ m.roll_die_index ∧
  (∀ g ∈ m.groups, 1 ≤ g.count ∧ g.count ≤ MAX_DICE_PER_GROUP ∧
      g.results.length = MAX_RESULTS_PER_GROUP) ∧
  (m.roll_group_index < (m.groups.length : Int) →
      m.roll_die_index < (m.groups.getD m.roll_group_index.toNat emptyGroup).count)

instance (m : DiceModel) : Decidable (RollInv m) := by
  unfold RollInv
  infer_instance

/-- Overwrite r at positions i, i+1, ... with the values vs, one List.set per
value — exactly the sequence of writes a run of model_commit_roll_result
performs inside one group. -/
def writeSeq (r : List Int) (i : Nat) : List Int → List Int
  | [] => r
  | v :: vs => writeSeq (r.set i v) (i + 1) vs

/-- The expected groups after a completed roll that committed the value
sequence vs: each group's results hold that group's contiguous chunk of vs
in slots 0..count-1, with the slots past count untouched. -/
def fillResults : List DiceGroup → List Int → List DiceGroup
  | [], _ => []
  | g :: gs, vs =>
      { g with results := vs.take g.count.toNat ++ g.results.drop g.count.toNat } ::
        fillResults gs (vs.drop g.count.toNat)

/-- One commitGroup call, keeping only the updated model (for iterating). -/
def model_commit_group_step (m : DiceModel) : DiceModel :=
  (model_commit_group m).2

def RollEvent.isCommit : RollEvent → Bool
  | RollEvent.commitEv _ => true
  | RollEvent.animStart _ => false

-- ---------------------------------------------------------------------------
-- Concrete scenarios used by counterexamples and witnesses
-- ---------------------------------------------------------------------------

/-- Button script from a fresh app: Select (to PickCount), Up (count 2),
Select (commit 2d6, to AddGroupPrompt), Select (back to PickDie).  The user
now has one committed group of two d6 and sits on the die picker. -/
def oneGroupPickDieCtx : StateContext :=
  (state_handle_select 1
    (state_handle_select 1
      (state_handle_up 1 (state_handle_select 1 initialContext []).1 []).1 []).1 []).1

/-- Select-hold on the die picker with one committed group: a quick roll. -/
def quickRollWithGroupCtx : StateContext :=
  (state_handle_select_long 2 oneGroupPickDieCtx []).1

/-- A quick roll from a fresh app (no committed groups), run to its natural
completion: select-hold starts it, the animator's completion callback
commits the single d6 (final value 4 here), and the result-hold timer
expiry advances past the last die, finishing the roll. -/
def quickRollStartedCtx : StateContext :=
  (state_handle_select_long 2 initialContext []).1

def quickRollCommittedCtx : StateContext :=
  (roll_anim_fire_complete 2 quickRollStartedCtx 4 []).1

def quickRollFinishedCtx : StateContext :=
  (prv_result_hold_timer_cb 2 quickRollCommittedCtx []).1

/-- A model holding a single committed d100 group (the tens-digit die:
zero-based, tens-mode, sampled on 10 sides). -/
def d100Model : DiceModel :=
  { groups := [{ sides := 100, count := 1, results := List.replicate MAX_RESULTS_PER_GROUP 0,
                 die_def_index := DICE_KIND_D100 }],
    selected_die_index := DICE_KIND_D100, selected_count := 1,
    roll_group_index := 0, roll_die_index := 0 }

/-- Mid-roll context on the d100 group with the roll metadata prepared, as
prv_start_next_die does right before starting the animator. -/
def d100RollingCtx : StateContext :=
  prv_prepare_roll_metadata
    { initialContext with current_state := AppState.ROLLING, model := d100Model,
                          anim_running := true, anim_sides := 10 }

/-- Mid-roll context: one group of two d6, first die still animating. -/
def twoDiceRollingCtx : StateContext :=
  prv_prepare_roll_metadata
    { initialContext with
        current_state := AppState.ROLLING,
        model := { groups := [{ sides := 6, count := 2,
                                results := List.replicate MAX_RESULTS_PER_GROUP 0,
                                die_def_index := DICE_KIND_D6 }],
                   selected_die_index := DICE_KIND_D6, selected_count := 1,
                   roll_group_index := 0, roll_die_index := 0 },
        anim_running := true, anim_sides := 6 }

/-- Two committed groups (two d6, one d4) ready to roll, for the C5 witness. -/
def twoGroupModel : DiceModel :=
  { groups := [{ sides := 6, count := 2, results := List.replicate MAX_RESULTS_PER_GROUP 0,
                 die_def_index := DICE_KIND_D6 },
               { sides := 4, count := 1, results := List.replicate MAX_RESULTS_PER_GROUP 0,
                 die_def_index := DICE_KIND_D4 }],
    selected_die_index := DICE_KIND_D6, selected_count := 1,
    roll_group_index := 0, roll_die_index := 0 }

-- ---------------------------------------------------------------------------
-- Generic list helper lemmas
-- ---------------------------------------------------------------------------

theorem listGetD_append_cons {α : Type} (pre : List α) (x : α) (post : List α) (d : α) :
    (pre ++ x :: post).getD pre.length d = x := by
  induction pre with
  | nil => rfl
  | cons a l ih => simpa using ih

theorem listSet_append_cons {α : Type} (pre : List α) (x y : α) (post : List α) :
    (pre ++ x :: post).set pre.length y = pre ++ y :: post := by
  induction pre with
  | nil => rfl
  | cons a l ih => simpa using ih

theorem listSet_getD_self {α : Type} (l : List α) (i : Nat) (d : α) (h : i < l.length) :
    l.set i (l.getD i d) = l := by
  induction l generalizing i with
  | nil => simp at h
  | cons a l ih =>
    cases i with
    | zero => rfl
    | succ i => simp only [List.getD_cons_succ, List.set_cons_succ]
                exact congrArg _ (ih i (by simpa using h))

theorem listGetD_set_self {α : Type} (l : List α) (i : Nat) (x d : α) (h : i < l.length) :
    (l.set i x).getD i d = x := by
  induction l generalizing i with
  | nil => simp at h
  | cons a l ih =>
    cases i with
    | zero => rfl
    | succ i => simpa using ih i (by simpa using h)

theorem listGetD_set_ne {α : Type} (l : List α) (i j : Nat) (x d : α) (h : i ≠ j) :
    (l.set i x).getD j d = l.getD j d := by
  induction l generalizing i j with
  | nil => rfl
  | cons a l ih =>
    cases i with
    | zero => cases j with
              | zero => exact absurd rfl h
              | succ j => rfl
    | succ i => cases j with
                | zero => rfl
                | succ j => simpa using ih i j (by omega)

theorem listGetD_mem {α : Type} (l : List α) (i : Nat) (d : α) (h : i < l.length) :
    l.getD i d ∈ l := by
  induction l generalizing i with
  | nil => simp at h
  | cons a l ih =>
    cases i with
    | zero => exact List.mem_cons_self a l
    | succ i => exact List.mem_cons_of_mem a (ih i (by simpa using h))

theorem listDrop_eq_getD_cons {α : Type} (l : List α) (i : Nat) (d : α) (h : i < l.length) :
    l.drop i = l.getD i d :: l.drop (i + 1) := by
  induction l generalizing i with
  | nil => simp at h
  | cons a l ih =>
    cases i with
    | zero => rfl
    | succ i => simpa using ih i (by simpa using h)

theorem listTake_succ_getD {α : Type} (l : List α) (i : Nat) (d : α) (h : i < l.length) :
    l.take (i + 1) = l.take i ++ [l.getD i d] := by
  induction l generalizing i with
  | nil => simp at h
  | cons a l ih =>
    cases i with
    | zero => rfl
    | succ i => simpa using ih i (by simpa using h)

theorem listTake_set {α : Type} (l : List α) (i : Nat) (x : α) :
    (l.set i x).take i = l.take i := by
  induction l generalizing i with
  | nil => rfl
  | cons a l ih =>
    cases i with
    | zero => rfl
    | succ i => simpa using ih i

theorem listDrop_set_succ {α : Type} (l : List α) (i : Nat) (x : α) :
    (l.set i x).drop (i + 1) = l.drop (i + 1) := by
  induction l generalizing i with
  | nil => rfl
  | cons a l ih =>
    cases i with
    | zero => rfl
    | succ i => simpa using ih i

theorem countsSum_nonneg (l : List DiceGroup) (h : ∀ g ∈ l, 1 ≤ g.count) :
    0 ≤ (l.map (fun g => g.count)).sum := by
  induction l with
  | nil => simp
  | cons g gs ih =>
    simp only [List.map_cons, List.sum_cons]
    have h1 := h g (List.mem_cons_self g gs)
    have h2 := ih (fun g' hg' => h g' (List.mem_cons_of_mem g hg'))
    omega

-- ---------------------------------------------------------------------------
-- Claim theorems
-- ---------------------------------------------------------------------------

/-- Claim C4, counterexample: from the initialized model (selected kind d6,
index 1), incrementSelectedKind with delta -20 computes
(1 + 8 - 20) tmod 8 = -3 under C truncated modulo — a negative, invalid
kind index, refuting validity for arbitrary delta magnitudes. -/
theorem c4_counterexample :
    (model_increment_selected_die model_init (-20)).selected_die_index = -3 ∧
    ¬ (0 ≤ (model_increment_selected_die model_init (-20)).selected_die_index ∧
        (model_increment_selected_die model_init (-20)).selected_die_index < DICE_KIND_COUNT) := by
  decide

/-- Claim C4, amended: starting from a valid selected kind index, any
sequence of incrementSelectedKind deltas each at least -DICE_KIND_COUNT
(covering the +1 and -1 steps the app issues) keeps the index a valid
enumerated kind in [0, DICE_KIND_COUNT); deltas below that can drive the C
truncated modulo negative. -/
theorem c4_kind_wraps (m : DiceModel) (ds : List Int)
    (h0 : 0 ≤ m.selected_die_index) (h1 : m.selected_die_index < DICE_KIND_COUNT)
    (hd : ∀ d ∈ ds, -DICE_KIND_COUNT ≤ d) :
    0 ≤ (ds.foldl model_increment_selected_die m).selected_die_index ∧
    (ds.foldl model_increment_selected_die m).selected_die_index < DICE_KIND_COUNT := by
  induction ds generalizing m with
  | nil => exact ⟨h0, h1⟩
  | cons d ds ih =>
    simp only [List.foldl_cons]
    apply ih
    · have hdel := hd d (List.mem_cons_self d ds)
      have ha : 0 ≤ m.selected_die_index + DICE_KIND_COUNT + d := by
        simp only [DICE_KIND_COUNT] at *
        omega
      simpa [model_increment_selected_die] using Int.tmod_nonneg DICE_KIND_COUNT ha
    · simpa [model_increment_selected_die] using
        Int.tmod_lt_of_pos (m.selected_die_index + DICE_KIND_COUNT + d)
          (by decide : (0 : Int) < DICE_KIND_COUNT)
    · exact fun d' hd' => hd d' (List.mem_cons_of_mem d hd')

/-- Witness for c4_kind_wraps at the initialized model and a concrete delta
sequence containing wraps in both directions. -/
theorem c4_witness :
    (0 ≤ model_init.selected_die_index ∧ model_init.selected_die_index < DICE_KIND_COUNT ∧
      ∀ d ∈ [(1 : Int), -1, 100, -8], -DICE_KIND_COUNT ≤ d) ∧
    (0 ≤ (([(1 : Int), -1, 100, -8]).foldl model_increment_selected_die model_init).selected_die_index ∧
      (([(1 : Int), -1, 100, -8]).foldl model_increment_selected_die model_init).selected_die_index <
        DICE_KIND_COUNT) :=
  ⟨⟨by decide, by decide, by decide⟩,
    c4_kind_wraps model_init [1, -1, 100, -8] (by decide) (by decide) (by decide)⟩

/-- Claim C6 (confirmed): from the initialized model, each of the first
MAX_DICE_GROUPS = 8 commitGroup calls succeeds and appends (group count
equals the number of calls made), and the 9th call returns false with the
model completely unchanged. -/
theorem c6_commit_group_capacity :
    ((List.range 8).all fun k =>
        (model_commit_group (model_commit_group_step^[k] model_init)).1) = true ∧
    ((List.range 9).all fun k =>
        (model_commit_group_step^[k] model_init).groups.length == k) = true ∧
    model_commit_group (model_commit_group_step^[8] model_init) =
      (false, model_commit_group_step^[8] model_init) := by
  decide

/-- Claim C7 (confirmed): for the d100 tens-digit kind (zero-based and
tens-mode per the s_die_defs table), normalization maps every raw sample v
in [1,10] to (v-1)*10, and the image of [1,10] is exactly
{0, 10, ..., 90}. -/
theorem c7_normalize_d100 (v : Int) (h1 : 1 ≤ v) (h2 : v ≤ 10) :
    prv_normalize_roll_value (model_kind_zero_based DICE_KIND_D100)
        (model_kind_tens_mode DICE_KIND_D100) v = (v - 1) * 10 ∧
    (List.range 10).map (fun i => prv_normalize_roll_value true true ((i : Int) + 1)) =
      [0, 10, 20, 30, 40, 50, 60, 70, 80, 90] := by
  constructor
  · have hzb : model_kind_zero_based DICE_KIND_D100 = true := by decide
    have htm : model_kind_tens_mode DICE_KIND_D100 = true := by decide
    rw [hzb, htm]
    unfold prv_normalize_roll_value
    have hv : ¬ v ≤ 0 := by omega
    have hv1 : ¬ v - 1 < 0 := by omega
    simp [hv, hv1]
  · decide

/-- Witness for c7_normalize_d100 at v = 7. -/
theorem c7_witness :
    (1 ≤ (7 : Int) ∧ (7 : Int) ≤ 10) ∧
    (prv_normalize_roll_value (model_kind_zero_based DICE_KIND_D100)
        (model_kind_tens_mode DICE_KIND_D100) 7 = (7 - 1) * 10 ∧
      (List.range 10).map (fun i => prv_normalize_roll_value true true ((i : Int) + 1)) =
        [0, 10, 20, 30, 40, 50, 60, 70, 80, 90]) :=
  ⟨⟨by decide, by decide⟩, c7_normalize_d100 7 (by decide) (by decide)⟩

/-- Claim C10 (confirmed): a tap delivered in any state other than Rolling
returns the context, the rand stream and the event trace untouched: the
skip request is discarded by the first guard of prv_set_skip_requested
before it can affect the state machine, the model, the skip flag, timers
or the animator. -/
theorem c10_tap_ignored (fuel : Nat) (ctx : StateContext) (rs : List Int)
    (h : ctx.current_state ≠ AppState.ROLLING) :
    state_handle_tap fuel ctx rs = (ctx, rs, []) := by
  simp [state_handle_tap, prv_set_skip_requested, h]

/-- Witness for c10_tap_ignored: a tap in the initial PickDie state. -/
theorem c10_witness :
    initialContext.current_state ≠ AppState.ROLLING ∧
    state_handle_tap 1 initialContext [] = (initialContext, [], []) :=
  ⟨by decide, c10_tap_ignored 1 initialContext [] (by decide)⟩

/-- Claim C1, counterexample: with one committed group (two d6) and the app
back on the die picker, a select-hold quick roll does not reduce the model
to a single group — prv_begin_quick_roll only appends the quick group, so
the model enters Rolling with two groups and three dice, and the roll
cursor (reset to the first group by model_begin_roll) will resolve the
previously committed group's dice as well. -/
theorem c1_counterexample :
    oneGroupPickDieCtx.current_state = AppState.PICK_DIE ∧
    oneGroupPickDieCtx.model.groups.length = 1 ∧
    oneGroupPickDieCtx.quick_roll_active = false ∧
    quickRollWithGroupCtx.current_state = AppState.ROLLING ∧
    quickRollWithGroupCtx.model.groups.length = 2 ∧
    model_roll_total_dice quickRollWithGroupCtx.model = 3 ∧
    quickRollWithGroupCtx.model.roll_group_index = 0 := by
  decide

/-- Claim C1, amended: a select-hold quick roll from PickDie or PickCount
saves the full model and appends one group of the currently selected kind
(count 1, or the in-progress count when in PickCount) to the already
committed groups, then begins rolling from the first group — so the
ensuing roll covers every committed group's dice plus the appended group,
not just the one quick group. -/
theorem c1_quick_roll_appends (fuel : Nat) (ctx : StateContext) (rs : List Int)
    (hstate : ctx.current_state = AppState.PICK_DIE ∨ ctx.current_state = AppState.PICK_COUNT)
    (hqr : ctx.quick_roll_active = false)
    (hcap : (ctx.model.groups.length : Int) < MAX_DICE_GROUPS) :
    let out := state_handle_select_long (fuel + 1) ctx rs
    let qcount : Int :=
      if ctx.current_state = AppState.PICK_COUNT then ctx.model.selected_count else 1
    out.1.saved_model = ctx.model ∧
    out.1.has_saved_model = true ∧
    out.1.quick_roll_active = true ∧
    out.1.current_state = AppState.ROLLING ∧
    out.1.model.roll_group_index = 0 ∧
    out.1.model.roll_die_index = 0 ∧
    out.1.model.groups.map (fun g => (g.die_def_index, g.count)) =
      ctx.model.groups.map (fun g => (g.die_def_index, g.count)) ++
        [(ctx.model.selected_die_index, qcount)] ∧
    model_roll_total_dice out.1.model = model_roll_total_dice ctx.model + qcount ∧
    (∃ r, out.2.2 = [RollEvent.animStart r]) := by
  have hns : ctx.current_state ≠ AppState.ROLLING := by
    rcases hstate with h | h <;> simp [h]
  have hcap' : ¬ MAX_DICE_GROUPS ≤ (ctx.model.groups.length : Int) := by omega
  simp only [state_handle_select_long, if_neg hns, if_pos hstate,
    prv_begin_quick_roll, hqr, Bool.false_eq_true, if_false,
    model_commit_group, if_neg hcap']
  simp only [prv_begin_roll, model_has_groups, model_begin_roll, prv_set_state,
    prv_start_next_die, model_has_roll_remaining, model_roll_total_dice,
    prv_prepare_roll_metadata, prv_commit_result, prv_finish_roll]
  simp [hns, List.map_append, List.map_map, Function.comp, model_roll_total_dice,
    Int.add_comm]
  rfl

/-- Witness for c1_quick_roll_appends: the quick roll from PickDie with one
committed 2d6 group. -/
theorem c1_witness :
    ((oneGroupPickDieCtx.current_state = AppState.PICK_DIE ∨
        oneGroupPickDieCtx.current_state = AppState.PICK_COUNT) ∧
      oneGroupPickDieCtx.quick_roll_active = false ∧
      (oneGroupPickDieCtx.model.groups.length : Int) < MAX_DICE_GROUPS) ∧
    (let out := state_handle_select_long (1 + 1) oneGroupPickDieCtx []
     let qcount : Int :=
       if oneGroupPickDieCtx.current_state = AppState.PICK_COUNT then
         oneGroupPickDieCtx.model.selected_count else 1
     out.1.saved_model = oneGroupPickDieCtx.model ∧
     out.1.has_saved_model = true ∧
     out.1.quick_roll_active = true ∧
     out.1.current_state = AppState.ROLLING ∧
     out.1.model.roll_group_index = 0 ∧
     out.1.model.roll_die_index = 0 ∧
     out.1.model.groups.map (fun g => (g.die_def_index, g.count)) =
       oneGroupPickDieCtx.model.groups.map (fun g => (g.die_def_index, g.count)) ++
         [(oneGroupPickDieCtx.model.selected_die_index, qcount)] ∧
     model_roll_total_dice out.1.model = model_roll_total_dice oneGroupPickDieCtx.model + qcount ∧
     (∃ r, out.2.2 = [RollEvent.animStart r])) :=
  ⟨⟨Or.inl (by decide), by decide, by decide⟩,
    c1_quick_roll_appends 1 oneGroupPickDieCtx [] (Or.inl (by decide)) (by decide) (by decide)⟩

/-- Claim C2, counterexample: a quick roll from a fresh app run to natural
completion (animator completion commits the one die, then the result-hold
timer advances past the cursor into Results).  At that completion the saved
model has not been restored: the quick-roll flags are still set and the
model still holds the quick group while the saved model has none. -/
theorem c2_counterexample :
    quickRollFinishedCtx.current_state = AppState.RESULTS ∧
    quickRollFinishedCtx.quick_roll_active = true ∧
    quickRollFinishedCtx.has_saved_model = true ∧
    quickRollFinishedCtx.saved_model.groups.length = 0 ∧
    quickRollFinishedCtx.model.groups.length = 1 ∧
    quickRollFinishedCtx.model ≠ quickRollFinishedCtx.saved_model := by
  decide

/-- Claim C2, amended: after a quick roll the saved model is restored not at
natural roll completion but when the user presses Select or Back on the
Results screen; those handlers first restore the saved model (clearing the
quick-roll flags), then — as for any Results exit — clear all groups and
reset the selection count to 1, so of the saved model the selected kind
survives. -/
theorem c2_restore_on_results_exit (fuel : Nat) (ctx : StateContext) (rs : List Int)
    (hstate : ctx.current_state = AppState.RESULTS)
    (hqr : ctx.quick_roll_active = true) (hsm : ctx.has_saved_model = true)
    (hidx0 : 0 ≤ ctx.saved_model.selected_die_index)
    (hidx1 : ctx.saved_model.selected_die_index < DICE_KIND_COUNT) :
    let out := state_handle_select fuel ctx rs
    state_handle_back fuel ctx rs = out ∧
    out.1.quick_roll_active = false ∧
    out.1.has_saved_model = false ∧
    out.1.model.selected_die_index = ctx.saved_model.selected_die_index ∧
    out.1.model.selected_count = 1 ∧
    out.1.model.groups = [] ∧
    out.1.current_state = AppState.PICK_DIE ∧
    out.2.2 = [] := by
  have h1 : ¬ (ctx.saved_model.selected_die_index < 0) := by omega
  have h2 : ¬ (DICE_KIND_COUNT ≤ ctx.saved_model.selected_die_index) := by omega
  simp only [state_handle_select, state_handle_back, hstate, prv_restore_saved_model,
    hqr, hsm, model_clear_groups, model_reset_selection_count, prv_clamp_selection,
    prv_set_state]
  simp [h1, h2, MAX_DICE_PER_GROUP]

/-- Witness for c2_restore_on_results_exit: pressing Select on the Results
screen reached by the natural completion of the fresh-app quick roll. -/
theorem c2_witness :
    (quickRollFinishedCtx.current_state = AppState.RESULTS ∧
      quickRollFinishedCtx.quick_roll_active = true ∧
      quickRollFinishedCtx.has_saved_model = true ∧
      0 ≤ quickRollFinishedCtx.saved_model.selected_die_index ∧
      quickRollFinishedCtx.saved_model.selected_die_index < DICE_KIND_COUNT) ∧
    (let out := state_handle_select 1 quickRollFinishedCtx []
     state_handle_back 1 quickRollFinishedCtx [] = out ∧
     out.1.quick_roll_active = false ∧
     out.1.has_saved_model = false ∧
     out.1.model.selected_die_index = quickRollFinishedCtx.saved_model.selected_die_index ∧
     out.1.model.selected_count = 1 ∧
     out.1.model.groups = [] ∧
     out.1.current_state = AppState.PICK_DIE ∧
     out.2.2 = []) :=
  ⟨⟨by decide, by decide, by decide, by decide, by decide⟩,
    c2_restore_on_results_exit 1 quickRollFinishedCtx [] (by decide) (by decide) (by decide)
      (by decide) (by decide)⟩

/-- Claim C3, counterexample: on the d100 tens die (zero-based, tens-mode),
the animator completion callback for raw sample 5 stores 40 = (5-1)*10 into
the die's results slot, not the raw sampled 5: prv_anim_complete normalizes
before calling model_commit_roll_result. -/
theorem c3_counterexample :
    (1 ≤ (5 : Int) ∧ (5 : Int) ≤ d100RollingCtx.roll_range) ∧
    ((prv_anim_complete 2 d100RollingCtx 5 []).1.model.groups.getD 0 emptyGroup).results.getD 0 0
      = 40 ∧
    ¬ ((prv_anim_complete 2 d100RollingCtx 5 []).1.model.groups.getD 0 emptyGroup).results.getD 0 0
      = 5 := by
  decide

/-- Claim C3, amended: the value the animator completion callback commits
via model_commit_roll_result is the post-normalization value (minus-one for
zero-based kinds, floored at 0, then times ten for tens-mode); it equals
the raw sample exactly for kinds that are neither zero-based nor tens-mode
(d4 through d20). -/
theorem c3_commit_normalized (fuel : Nat) (ctx : StateContext) (v : Int) (rs : List Int)
    (hskip : ctx.skip_requested = false) :
    (prv_anim_complete fuel ctx v rs).1.model =
      model_commit_roll_result ctx.model
        (prv_normalize_roll_value ctx.roll_zero_based ctx.roll_tens_mode v) ∧
    (prv_anim_complete fuel ctx v rs).2.2 =
      [RollEvent.commitEv (prv_normalize_roll_value ctx.roll_zero_based ctx.roll_tens_mode v)] ∧
    (ctx.roll_zero_based = false → ctx.roll_tens_mode = false → 1 ≤ v →
      prv_normalize_roll_value ctx.roll_zero_based ctx.roll_tens_mode v = v) ∧
    (ctx.roll_zero_based = true → ctx.roll_tens_mode = true → 1 ≤ v →
      prv_normalize_roll_value ctx.roll_zero_based ctx.roll_tens_mode v = (v - 1) * 10) := by
  refine ⟨?_, ?_, ?_, ?_⟩
  · simp [prv_anim_complete, prv_after_result, prv_commit_result, hskip]
  · simp [prv_anim_complete, prv_after_result, prv_commit_result, hskip]
  · intro hzb htm hv
    rw [hzb, htm]
    unfold prv_normalize_roll_value
    have hnv : ¬ v ≤ 0 := by omega
    simp [hnv]
  · intro hzb htm hv
    rw [hzb, htm]
    unfold prv_normalize_roll_value
    have hnv : ¬ v ≤ 0 := by omega
    have hnv1 : ¬ v - 1 < 0 := by omega
    simp [hnv, hnv1]

/-- Witness for c3_commit_normalized on the d100 mid-roll context with raw
sample 5. -/
theorem c3_witness :
    d100RollingCtx.skip_requested = false ∧
    ((prv_anim_complete 2 d100RollingCtx 5 []).1.model =
      model_commit_roll_result d100RollingCtx.model
        (prv_normalize_roll_value d100RollingCtx.roll_zero_based d100RollingCtx.roll_tens_mode 5) ∧
    (prv_anim_complete 2 d100RollingCtx 5 []).2.2 =
      [RollEvent.commitEv
        (prv_normalize_roll_value d100RollingCtx.roll_zero_based d100RollingCtx.roll_tens_mode 5)] ∧
    (d100RollingCtx.roll_zero_based = false → d100RollingCtx.roll_tens_mode = false → 1 ≤ (5 : Int) →
      prv_normalize_roll_value d100RollingCtx.roll_zero_based d100RollingCtx.roll_tens_mode 5 = 5) ∧
    (d100RollingCtx.roll_zero_based = true → d100RollingCtx.roll_tens_mode = true → 1 ≤ (5 : Int) →
      prv_normalize_roll_value d100RollingCtx.roll_zero_based d100RollingCtx.roll_tens_mode 5 =
        (5 - 1) * 10)) :=
  ⟨by decide, c3_commit_normalized 2 d100RollingCtx 5 [] (by decide)⟩

/-- Claim C9 (confirmed): under the roll-cursor invariants,
model_commit_roll_result touches the results array only at in-bounds
positions: when the roll is complete it is a no-op; when the die index has
reached the current group's count it advances the cursor without writing;
otherwise it writes exactly one slot, at index roll_die_index < count. -/
theorem c9_commit_roll_bounds (m : DiceModel) (v : Int)
    (hgi : 0 ≤ m.roll_group_index)
    (hglen : (m.groups.length : Int) ≤ MAX_DICE_GROUPS)
    (hdi : 0 ≤ m.roll_die_index)
    (hcnt : ∀ g ∈ m.groups, g.count ≤ MAX_DICE_PER_GROUP) :
    (model_has_roll_remaining m = false → model_commit_roll_result m v = m) ∧
    (model_has_roll_remaining m = true →
      (m.groups.getD m.roll_group_index.toNat emptyGroup).count ≤ m.roll_die_index →
      (model_commit_roll_result m v).groups = m.groups ∧
      (model_commit_roll_result m v).roll_group_index = m.roll_group_index + 1 ∧
      (model_commit_roll_result m v).roll_die_index = 0) ∧
    (model_has_roll_remaining m = true →
      m.roll_die_index < (m.groups.getD m.roll_group_index.toNat emptyGroup).count →
      m.roll_die_index.toNat < (m.groups.getD m.roll_group_index.toNat emptyGroup).count.toNat ∧
      (model_commit_roll_result m v).groups =
        m.groups.set m.roll_group_index.toNat
          { m.groups.getD m.roll_group_index.toNat emptyGroup with
            results := (m.groups.getD m.roll_group_index.toNat emptyGroup).results.set
              m.roll_die_index.toNat v }) := by
  refine ⟨?_, ?_, ?_⟩
  · intro h
    simp [model_commit_roll_result, h]
  · intro h hge
    have hlt : m.roll_group_index < (m.groups.length : Int) := by
      simpa [model_has_roll_remaining] using h
    have hgiN : m.roll_group_index.toNat < m.groups.length := by omega
    have hnw : ¬ (m.roll_die_index < (m.groups.getD m.roll_group_index.toNat emptyGroup).count) := by
      omega
    have hro : (m.groups.getD m.roll_group_index.toNat emptyGroup).count ≤ m.roll_die_index + 1 := by
      omega
    simp only [model_commit_roll_result, h, if_true, if_neg hnw, if_pos hro]
    exact ⟨listSet_getD_self _ _ _ hgiN, by simp, by simp⟩
  · intro h hlt'
    refine ⟨by omega, ?_⟩
    simp only [model_commit_roll_result, h, if_true, if_pos hlt']
    split <;> rfl

/-- Witness for c9_commit_roll_bounds: the two-group model with the cursor
on the first die. -/
theorem c9_witness :
    (0 ≤ twoGroupModel.roll_group_index ∧
      (twoGroupModel.groups.length : Int) ≤ MAX_DICE_GROUPS ∧
      0 ≤ twoGroupModel.roll_die_index ∧
      ∀ g ∈ twoGroupModel.groups, g.count ≤ MAX_DICE_PER_GROUP) ∧
    ((model_has_roll_remaining twoGroupModel = false →
        model_commit_roll_result twoGroupModel 7 = twoGroupModel) ∧
      (model_has_roll_remaining twoGroupModel = true →
        (twoGroupModel.groups.getD twoGroupModel.roll_group_index.toNat emptyGroup).count ≤
          twoGroupModel.roll_die_index →
        (model_commit_roll_result twoGroupModel 7).groups = twoGroupModel.groups ∧
        (model_commit_roll_result twoGroupModel 7).roll_group_index =
          twoGroupModel.roll_group_index + 1 ∧
        (model_commit_roll_result twoGroupModel 7).roll_die_index = 0) ∧
      (model_has_roll_remaining twoGroupModel = true →
        twoGroupModel.roll_die_index <
          (twoGroupModel.groups.getD twoGroupModel.roll_group_index.toNat emptyGroup).count →
        twoGroupModel.roll_die_index.toNat <
          (twoGroupModel.groups.getD twoGroupModel.roll_group_index.toNat emptyGroup).count.toNat ∧
        (model_commit_roll_result twoGroupModel 7).groups =
          twoGroupModel.groups.set twoGroupModel.roll_group_index.toNat
            { twoGroupModel.groups.getD twoGroupModel.roll_group_index.toNat emptyGroup with
              results :=
                (twoGroupModel.groups.getD twoGroupModel.roll_group_index.toNat
                    emptyGroup).results.set twoGroupModel.roll_die_index.toNat 7 })) :=
  ⟨⟨by decide, by decide, by decide, by decide⟩,
    c9_commit_roll_bounds twoGroupModel 7 (by decide) (by decide) (by decide) (by decide)⟩

-- ---------------------------------------------------------------------------
-- Roll-walk lemmas for C5 and C8
-- ---------------------------------------------------------------------------

theorem listDrop_set_of_lt {α : Type} (l : List α) (i j : Nat) (x : α) (h : i < j) :
    (l.set i x).drop j = l.drop j := by
  induction l generalizing i j with
  | nil => rfl
  | cons a l ih =>
    cases i with
    | zero =>
      cases j with
      | zero => omega
      | succ j => rfl
    | succ i =>
      cases j with
      | zero => omega
      | succ j => simpa using ih i j (by omega)

theorem listTake_succ_set {α : Type} (l : List α) (i : Nat) (x : α) (h : i < l.length) :
    (l.set i x).take (i + 1) = l.take i ++ [x] := by
  rw [listTake_succ_getD (l.set i x) i x (by simpa using h),
    listGetD_set_self l i x x h, listTake_set]

theorem writeSeq_eq (vs : List Int) (r : List Int) (i : Nat) (h : i + vs.length ≤ r.length) :
    writeSeq r i vs = r.take i ++ vs ++ r.drop (i + vs.length) := by
  induction vs generalizing r i with
  | nil => simp [writeSeq]
  | cons v vs ih =>
    have hlt : i < r.length := by simp at h; omega
    rw [writeSeq, ih (r.set i v) (i + 1) (by simp; simp at h; omega)]
    rw [listTake_succ_set r i v hlt, listDrop_set_of_lt r i (i + 1 + vs.length) v (by omega)]
    simp [List.append_assoc]
    congr 1
    omega

theorem commit_walk_group (vs : List Int) :
    ∀ (m : DiceModel),
      0 ≤ m.roll_group_index →
      m.roll_group_index < (m.groups.length : Int) →
      0 ≤ m.roll_die_index →
      vs ≠ [] →
      m.roll_die_index + (vs.length : Int) =
        (m.groups.getD m.roll_group_index.toNat emptyGroup).count →
      List.foldl model_commit_roll_result m vs =
        { m with
          groups := m.groups.set m.roll_group_index.toNat
            { m.groups.getD m.roll_group_index.toNat emptyGroup with
              results := writeSeq (m.groups.getD m.roll_group_index.toNat emptyGroup).results
                m.roll_die_index.toNat vs },
          roll_group_index := m.roll_group_index + 1,
          roll_die_index := 0 } := by
  induction vs with
  | nil => intro m _ _ _ hne _; exact absurd rfl hne
  | cons v vs ih =>
    intro m hgi0 hgilt hdi0 _ hcount
    have hgiNlt : m.roll_group_index.toNat < m.groups.length := by omega
    have hrem : model_has_roll_remaining m = true := by
      simp only [model_has_roll_remaining, decide_eq_true_eq]
      omega
    have hdilt : m.roll_die_index <
        (m.groups.getD m.roll_group_index.toNat emptyGroup).count := by
      simp only [List.length_cons] at hcount
      push_cast at hcount
      omega
    rw [List.foldl_cons]
    by_cases hvs : vs = []
    · subst hvs
      have hro : (m.groups.getD m.roll_group_index.toNat emptyGroup).count ≤
          m.roll_die_index + 1 := by
        simp only [List.length_cons, List.length_nil] at hcount
        push_cast at hcount
        omega
      simp only [List.foldl_nil]
      simp only [model_commit_roll_result, hrem, if_true, if_pos hdilt, if_pos hro]
      simp [writeSeq]
    · have hvslen : 1 ≤ vs.length := List.length_pos.mpr hvs
      have hnro : ¬ ((m.groups.getD m.roll_group_index.toNat emptyGroup).count ≤
          m.roll_die_index + 1) := by
        simp only [List.length_cons] at hcount
        push_cast at hcount
        omega
      have hstep : model_commit_roll_result m v =
          { m with
            groups := m.groups.set m.roll_group_index.toNat
              { m.groups.getD m.roll_group_index.toNat emptyGroup with
                results := (m.groups.getD m.roll_group_index.toNat emptyGroup).results.set
                  m.roll_die_index.toNat v },
            roll_die_index := m.roll_die_index + 1 } := by
        simp only [model_commit_roll_result, hrem, if_true, if_pos hdilt, if_neg hnro]
      rw [hstep]
      rw [ih _ (by simpa using hgi0) (by simpa using hgilt) (by simp; omega) hvs ?hc]
      case hc =>
        simp only []
        rw [listGetD_set_self _ _ _ _ (by simpa using hgiNlt)]
        simp only [List.length_cons] at hcount
        push_cast at hcount ⊢
        omega
      · simp only [List.set_set]
        rw [listGetD_set_self _ _ _ _ (by simpa using hgiNlt)]
        have htn : (m.roll_die_index + 1).toNat = m.roll_die_index.toNat + 1 := by omega
        rw [htn]
        rfl

theorem commit_walk_groups :
    ∀ (post pre : List DiceGroup) (m : DiceModel) (vs : List Int),
      m.groups = pre ++ post →
      m.roll_group_index = (pre.length : Int) →
      m.roll_die_index = 0 →
      (∀ g ∈ post, 1 ≤ g.count ∧ g.count ≤ MAX_DICE_PER_GROUP ∧
          g.results.length = MAX_RESULTS_PER_GROUP) →
      (vs.length : Int) = (post.map (fun g => g.count)).sum →
      List.foldl model_commit_roll_result m vs =
        { m with groups := pre ++ fillResults post vs,
                 roll_group_index := ((pre.length + post.length : Nat) : Int),
                 roll_die_index := 0 } := by
  intro post
  induction post with
  | nil =>
    intro pre m vs hg hgi hdi _ hlen
    have hvs : vs = [] := by
      have h0 : (vs.length : Int) = 0 := by simpa using hlen
      have h1 : vs.length = 0 := by exact_mod_cast h0
      exact List.length_eq_zero.mp h1
    subst hvs
    obtain ⟨mgroups, msdi, msc, mrgi, mrdi⟩ := m
    simp only at hg hgi hdi
    subst hg hgi hdi
    simp [fillResults]
  | cons g gs ih =>
    intro pre m vs hg hgi hdi hcnt hlen
    obtain ⟨hc1, hc10, hrlen⟩ := hcnt g (List.mem_cons_self g gs)
    have hcnt' : ∀ g' ∈ gs, 1 ≤ g'.count ∧ g'.count ≤ MAX_DICE_PER_GROUP ∧
        g'.results.length = MAX_RESULTS_PER_GROUP :=
      fun g' h => hcnt g' (List.mem_cons_of_mem g h)
    have hsum0 : 0 ≤ (gs.map (fun g => g.count)).sum :=
      countsSum_nonneg _ (fun g' h => (hcnt' g' h).1)
    have hcvs : g.count.toNat ≤ vs.length := by
      simp only [List.map_cons, List.sum_cons] at hlen
      omega
    have htake_len : (vs.take g.count.toNat).length = g.count.toNat := by
      simp [hcvs]
    obtain ⟨mgroups, msdi, msc, mrgi, mrdi⟩ := m
    simp only at hg hgi hdi
    subst hg hgi hdi
    have hsplit : List.foldl model_commit_roll_result
        { groups := pre ++ g :: gs, selected_die_index := msdi, selected_count := msc,
          roll_group_index := (pre.length : Int), roll_die_index := 0 } vs =
        List.foldl model_commit_roll_result
          (List.foldl model_commit_roll_result
            { groups := pre ++ g :: gs, selected_die_index := msdi, selected_count := msc,
              roll_group_index := (pre.length : Int), roll_die_index := 0 }
            (vs.take g.count.toNat)) (vs.drop g.count.toNat) := by
      rw [← List.foldl_append, List.take_append_drop]
    rw [hsplit]
    rw [commit_walk_group (vs.take g.count.toNat) _
      (by simp) (by simp) (by simp)
      (by rw [← List.length_pos, htake_len]; omega)
      (by simp only []
          rw [show ((pre.length : Int)).toNat = pre.length by omega,
            listGetD_append_cons pre g gs emptyGroup, htake_len]
          omega)]
    simp only []
    rw [show ((pre.length : Int)).toNat = pre.length by omega,
      listGetD_append_cons pre g gs emptyGroup,
      listSet_append_cons pre g _ gs]
    rw [ih (pre ++ [{ g with results := writeSeq g.results 0 (vs.take g.count.toNat) }])
      _ (vs.drop g.count.toNat)
      (by simp)
      (by simp)
      rfl
      hcnt'
      (by simp only [List.length_drop, List.map_cons, List.sum_cons] at hlen ⊢
          push_cast [hcvs]
          omega)]
    have hws : writeSeq g.results 0 (vs.take g.count.toNat) =
        vs.take g.count.toNat ++ g.results.drop g.count.toNat := by
      rw [writeSeq_eq _ _ _ (by
        rw [htake_len, hrlen]
        have h10 := hc10
        simp only [MAX_DICE_PER_GROUP] at h10
        simp only [MAX_RESULTS_PER_GROUP]
        omega)]
      simp [htake_len]
    simp only [fillResults, hws]
    rw [DiceModel.mk.injEq]
    refine ⟨by simp, rfl, rfl, ?_, rfl⟩
    exact congrArg _ (by simp; omega)

theorem fillResults_length (gs : List DiceGroup) (vs : List Int) :
    (fillResults gs vs).length = gs.length := by
  induction gs generalizing vs with
  | nil => rfl
  | cons g gs ih => simp [fillResults, ih]

theorem fillResults_map_count (gs : List DiceGroup) (vs : List Int) :
    (fillResults gs vs).map (fun g => g.count) = gs.map (fun g => g.count) := by
  induction gs generalizing vs with
  | nil => rfl
  | cons g gs ih => simp [fillResults, ih]


/-- Claim C5 (confirmed): after beginRoll on a model whose committed groups
all have counts in [1, MAX_DICE_PER_GROUP], folding commitRollResult over
exactly totalDice values completes the roll: hasRollRemaining is false, the
completed-dice count equals the total, and the final groups are exactly
fillResults of the zeroed groups — each group's results hold its contiguous
chunk of the committed values in slots 0..count-1 in order, one write per
slot, none skipped — while a further commitRollResult is a no-op. -/
theorem c5_roll_completes (m0 : DiceModel) (vs : List Int) (v : Int)
    (hcnt : ∀ g ∈ m0.groups, 1 ≤ g.count ∧ g.count ≤ MAX_DICE_PER_GROUP)
    (hlen : (vs.length : Int) = model_roll_total_dice m0) :
    model_has_roll_remaining
        (List.foldl model_commit_roll_result (model_begin_roll m0) vs) = false ∧
    model_roll_completed_dice (List.foldl model_commit_roll_result (model_begin_roll m0) vs) =
      model_roll_total_dice (List.foldl model_commit_roll_result (model_begin_roll m0) vs) ∧
    model_roll_total_dice (List.foldl model_commit_roll_result (model_begin_roll m0) vs) =
      model_roll_total_dice m0 ∧
    (List.foldl model_commit_roll_result (model_begin_roll m0) vs).groups =
      fillResults (model_begin_roll m0).groups vs ∧
    model_commit_roll_result (List.foldl model_commit_roll_result (model_begin_roll m0) vs) v =
      List.foldl model_commit_roll_result (model_begin_roll m0) vs := by
  set m := model_begin_roll m0 with hm
  have hbg : m.groups =
      m0.groups.map (fun g => { g with results := List.replicate MAX_RESULTS_PER_GROUP 0 }) := rfl
  have hmapcnt : m.groups.map (fun g => g.count) = m0.groups.map (fun g => g.count) := by
    rw [hbg, List.map_map]
    rfl
  have hwalk := commit_walk_groups m.groups [] m vs (by simp) (by rw [hm]; rfl)
    (by rw [hm]; rfl) ?counts ?len
  case counts =>
    intro g hgm
    rw [hbg] at hgm
    obtain ⟨g0, hg0, rfl⟩ := List.mem_map.mp hgm
    exact ⟨(hcnt g0 hg0).1, (hcnt g0 hg0).2, by simp⟩
  case len =>
    unfold model_roll_total_dice at hlen
    rw [hmapcnt]
    exact hlen
  have hlenfill : (fillResults m.groups vs).length = m.groups.length :=
    fillResults_length m.groups vs
  rw [hwalk]
  have hnorem : model_has_roll_remaining
      { m with groups := ([] : List DiceGroup) ++ fillResults m.groups vs,
               roll_group_index := ((([] : List DiceGroup).length + m.groups.length : Nat) : Int),
               roll_die_index := 0 } = false := by
    simp [model_has_roll_remaining, hlenfill]
  refine ⟨hnorem, ?_, ?_, by simp, ?_⟩
  · unfold model_roll_completed_dice model_roll_total_dice
    simp only [List.nil_append, List.length_nil, Nat.zero_add]
    rw [show ((m.groups.length : Int)).toNat = m.groups.length by omega]
    rw [← hlenfill, List.take_length]
    simp
  · unfold model_roll_total_dice
    simp only [List.nil_append]
    rw [fillResults_map_count, hmapcnt]
  · rw [model_commit_roll_result, hnorem]
    simp

/-- Witness for c5_roll_completes: the two-group model (2 d6 + 1 d4) rolled
with the value sequence [3, 4, 5]. -/
theorem c5_witness :
    ((∀ g ∈ twoGroupModel.groups, 1 ≤ g.count ∧ g.count ≤ MAX_DICE_PER_GROUP) ∧
      ((([3, 4, 5] : List Int)).length : Int) = model_roll_total_dice twoGroupModel) ∧
    (model_has_roll_remaining
        (List.foldl model_commit_roll_result (model_begin_roll twoGroupModel) [3, 4, 5]) = false ∧
      model_roll_completed_dice
          (List.foldl model_commit_roll_result (model_begin_roll twoGroupModel) [3, 4, 5]) =
        model_roll_total_dice
          (List.foldl model_commit_roll_result (model_begin_roll twoGroupModel) [3, 4, 5]) ∧
      model_roll_total_dice
          (List.foldl model_commit_roll_result (model_begin_roll twoGroupModel) [3, 4, 5]) =
        model_roll_total_dice twoGroupModel ∧
      (List.foldl model_commit_roll_result (model_begin_roll twoGroupModel) [3, 4, 5]).groups =
        fillResults (model_begin_roll twoGroupModel).groups [3, 4, 5] ∧
      model_commit_roll_result
          (List.foldl model_commit_roll_result (model_begin_roll twoGroupModel) [3, 4, 5]) 6 =
        List.foldl model_commit_roll_result (model_begin_roll twoGroupModel) [3, 4, 5]) :=
  ⟨⟨by decide, by decide⟩, c5_roll_completes twoGroupModel [3, 4, 5] 6 (by decide) (by decide)⟩

-- ---------------------------------------------------------------------------
-- Skip-loop machinery for C8
-- ---------------------------------------------------------------------------

theorem listGetD_map {α β : Type} (f : α → β) (l : List α) (i : Nat) (d : α) :
    (l.map f).getD i (f d) = f (l.getD i d) := by
  induction l generalizing i with
  | nil => rfl
  | cons a l ih =>
    cases i with
    | zero => rfl
    | succ i => simpa using ih i

theorem listMap_set_same {α β : Type} (f : α → β) (l : List α) (i : Nat) (x d : α)
    (h : f x = f (l.getD i d)) : (l.set i x).map f = l.map f := by
  induction l generalizing i with
  | nil => rfl
  | cons a l ih =>
    cases i with
    | zero => simpa using h
    | succ i => simpa using ih i (by simpa using h)

theorem commit_step (m : DiceModel) (v : Int)
    (hinv : RollInv m) (hrem : model_has_roll_remaining m = true) :
    RollInv (model_commit_roll_result m v) ∧
    remainingDice (model_commit_roll_result m v) + 1 = remainingDice m ∧
    (model_commit_roll_result m v).groups.length = m.groups.length := by
  obtain ⟨hgi0, hgile, hdi0, hcounts, hdilt⟩ := hinv
  have hlt : m.roll_group_index < (m.groups.length : Int) := by
    simpa [model_has_roll_remaining, decide_eq_true_eq] using hrem
  have hgiN : m.roll_group_index.toNat < m.groups.length := by omega
  have hdltc := hdilt hlt
  have hmem : m.groups.getD m.roll_group_index.toNat emptyGroup ∈ m.groups :=
    listGetD_mem _ _ _ hgiN
  obtain ⟨hgc1, hgc10, hgrlen⟩ := hcounts _ hmem
  have hSlen : (m.groups.map (fun g => g.count)).length = m.groups.length := by simp
  have hSgetD : (m.groups.map (fun g => g.count)).getD m.roll_group_index.toNat 0 =
      (m.groups.getD m.roll_group_index.toNat emptyGroup).count := by
    have h0 : (emptyGroup.count : Int) = 0 := rfl
    rw [← h0, listGetD_map (fun g => g.count) m.groups m.roll_group_index.toNat emptyGroup]
  have hSsplit : (m.groups.map (fun g => g.count)).sum =
      ((m.groups.map (fun g => g.count)).take m.roll_group_index.toNat).sum +
      ((m.groups.map (fun g => g.count)).drop m.roll_group_index.toNat).sum := by
    rw [← List.sum_append, List.take_append_drop]
  have hSdrop : (m.groups.map (fun g => g.count)).drop m.roll_group_index.toNat =
      (m.groups.getD m.roll_group_index.toNat emptyGroup).count ::
        (m.groups.map (fun g => g.count)).drop (m.roll_group_index.toNat + 1) := by
    rw [listDrop_eq_getD_cons _ _ (0 : Int) (by omega), hSgetD]
  have hdropnn : 0 ≤ ((m.groups.map (fun g => g.count)).drop
      (m.roll_group_index.toNat + 1)).sum := by
    apply List.sum_nonneg
    intro x hx
    have hxS : x ∈ m.groups.map (fun g => g.count) := List.mem_of_mem_drop hx
    obtain ⟨g', hg', rfl⟩ := List.mem_map.mp hxS
    exact le_trans (by omega) (hcounts g' hg').1
  have htakeS : ((m.groups.map (fun g => g.count)).take (m.roll_group_index.toNat + 1)).sum =
      ((m.groups.map (fun g => g.count)).take m.roll_group_index.toNat).sum +
      (m.groups.getD m.roll_group_index.toNat emptyGroup).count := by
    rw [listTake_succ_getD _ _ (0 : Int) (by omega), List.sum_append, hSgetD]
    simp
  by_cases hro : (m.groups.getD m.roll_group_index.toNat emptyGroup).count ≤
      m.roll_die_index + 1
  · have hstep : model_commit_roll_result m v =
        { m with
          groups := m.groups.set m.roll_group_index.toNat
            ({ m.groups.getD m.roll_group_index.toNat emptyGroup with
              results := (m.groups.getD m.roll_group_index.toNat emptyGroup).results.set
                m.roll_die_index.toNat v }),
          roll_group_index := m.roll_group_index + 1,
          roll_die_index := 0 } := by
      simp only [model_commit_roll_result, hrem, if_true, if_pos hdltc, if_pos hro]
    have hS' : (m.groups.set m.roll_group_index.toNat
        ({ m.groups.getD m.roll_group_index.toNat emptyGroup with
          results := (m.groups.getD m.roll_group_index.toNat emptyGroup).results.set
            m.roll_die_index.toNat v })).map (fun g => g.count) =
        m.groups.map (fun g => g.count) :=
      listMap_set_same _ _ _ _ emptyGroup rfl
    rw [hstep]
    refine ⟨⟨?_, ?_, ?_, ?_, ?_⟩, ?_, ?_⟩
    · dsimp only
      omega
    · dsimp only
      simp only [List.length_set]
      omega
    · dsimp only
      omega
    · dsimp only
      intro g' hg'
      rcases List.mem_or_eq_of_mem_set hg' with h | h
      · exact hcounts g' h
      · subst h
        exact ⟨hgc1, hgc10, by simpa using hgrlen⟩
    · dsimp only
      intro hlt'
      simp only [List.length_set] at hlt'
      have htn : (m.roll_group_index + 1).toNat = m.roll_group_index.toNat + 1 := by omega
      rw [htn, listGetD_set_ne m.groups m.roll_group_index.toNat
        (m.roll_group_index.toNat + 1) _ emptyGroup (by omega)]
      have hmem2 : m.groups.getD (m.roll_group_index.toNat + 1) emptyGroup ∈ m.groups :=
        listGetD_mem _ _ _ (by omega)
      have h1c := (hcounts _ hmem2).1
      omega
    · unfold remainingDice model_roll_total_dice model_roll_completed_dice
      dsimp only
      simp only [List.map_take, hS']
      have htn : (m.roll_group_index + 1).toNat = m.roll_group_index.toNat + 1 := by omega
      rw [htn, htakeS]
      rw [hSsplit, hSdrop]
      simp only [List.sum_cons]
      omega
    · dsimp only
      simp
  · have hstep : model_commit_roll_result m v =
        { m with
          groups := m.groups.set m.roll_group_index.toNat
            ({ m.groups.getD m.roll_group_index.toNat emptyGroup with
              results := (m.groups.getD m.roll_group_index.toNat emptyGroup).results.set
                m.roll_die_index.toNat v }),
          roll_die_index := m.roll_die_index + 1 } := by
      simp only [model_commit_roll_result, hrem, if_true, if_pos hdltc, if_neg hro]
    have hS' : (m.groups.set m.roll_group_index.toNat
        ({ m.groups.getD m.roll_group_index.toNat emptyGroup with
          results := (m.groups.getD m.roll_group_index.toNat emptyGroup).results.set
            m.roll_die_index.toNat v })).map (fun g => g.count) =
        m.groups.map (fun g => g.count) :=
      listMap_set_same _ _ _ _ emptyGroup rfl
    rw [hstep]
    refine ⟨⟨?_, ?_, ?_, ?_, ?_⟩, ?_, ?_⟩
    · dsimp only
      omega
    · dsimp only
      simp only [List.length_set]
      omega
    · dsimp only
      omega
    · dsimp only
      intro g' hg'
      rcases List.mem_or_eq_of_mem_set hg' with h | h
      · exact hcounts g' h
      · subst h
        exact ⟨hgc1, hgc10, by simpa using hgrlen⟩
    · dsimp only
      intro hlt'
      rw [listGetD_set_self _ _ _ _ hgiN]
      dsimp only
      omega
    · unfold remainingDice model_roll_total_dice model_roll_completed_dice
      dsimp only
      simp only [List.map_take, hS', listTake_set]
      rw [hSsplit, hSdrop]
      simp only [List.sum_cons]
      omega
    · dsimp only
      simp

theorem remaining_zero (m : DiceModel) (hinv : RollInv m)
    (hrem : model_has_roll_remaining m = false) : remainingDice m = 0 := by
  obtain ⟨hgi0, hgile, hdi0, _, _⟩ := hinv
  have hge : ¬ (m.roll_group_index < (m.groups.length : Int)) := by
    simpa [model_has_roll_remaining] using hrem
  have htn : m.roll_group_index.toNat = m.groups.length := by omega
  unfold remainingDice model_roll_total_dice model_roll_completed_dice
  rw [htn, List.take_length]
  omega

theorem remaining_pos (m : DiceModel) (hinv : RollInv m)
    (hrem : model_has_roll_remaining m = true) : 1 ≤ remainingDice m := by
  have := (commit_step m 0 hinv hrem).2.1
  omega

theorem c8_loop :
    ∀ (n : Nat) (fuel : Nat) (ctx : StateContext) (rs : List Int),
      remainingDice ctx.model = n →
      RollInv ctx.model →
      ctx.current_state = AppState.ROLLING →
      ctx.skip_requested = true →
      n < fuel →
      (prv_start_next_die fuel ctx rs).1.current_state = AppState.RESULTS ∧
      (prv_start_next_die fuel ctx rs).1.skip_requested = false ∧
      (prv_start_next_die fuel ctx rs).1.anim_running = ctx.anim_running ∧
      (prv_start_next_die fuel ctx rs).2.2.length = n ∧
      (prv_start_next_die fuel ctx rs).2.2.all RollEvent.isCommit = true := by
  intro n
  induction n with
  | zero =>
    intro fuel ctx rs hrem hinv hstate hskip hfuel
    obtain ⟨f, rfl⟩ : ∃ f, fuel = f + 1 := ⟨fuel - 1, by omega⟩
    have hnorem : model_has_roll_remaining ctx.model = false := by
      cases hb : model_has_roll_remaining ctx.model with
      | false => rfl
      | true =>
        have := remaining_pos ctx.model hinv hb
        omega
    simp [prv_start_next_die, hnorem, prv_finish_roll, prv_set_state, hstate]
  | succ n ih =>
    intro fuel ctx rs hrem hinv hstate hskip hfuel
    obtain ⟨f, rfl⟩ : ∃ f, fuel = f + 1 := ⟨fuel - 1, by omega⟩
    have hyes : model_has_roll_remaining ctx.model = true := by
      cases hb : model_has_roll_remaining ctx.model with
      | true => rfl
      | false =>
        have := remaining_zero ctx.model hinv hb
        omega
    set ctx1 : StateContext := { ctx with result_hold_timer := false } with hc1
    set ctx2 : StateContext := prv_prepare_roll_metadata ctx1 with hc2
    set ctx3 : StateContext := { ctx2 with rolling_value := -1 } with hc3
    set r : Int := (takeRand rs).1 with hr
    set rs1 : List Int := (takeRand rs).2 with hrs1
    set value : Int := prv_random_result_value ctx3 r with hv
    set ctx4 : StateContext := prv_commit_result ctx3 value with hc4
    have h1m : ctx1.model = ctx.model := rfl
    have h3skip : ctx3.skip_requested = ctx.skip_requested := rfl
    have h4model : ctx4.model = model_commit_roll_result ctx.model value := rfl
    have h4state : ctx4.current_state = ctx.current_state := rfl
    have h4skip : ctx4.skip_requested = ctx.skip_requested := rfl
    have h4anim : ctx4.anim_running = ctx.anim_running := rfl
    have hmodel1 : model_has_roll_remaining
        ({ ctx with result_hold_timer := false } : StateContext).model = true := hyes
    have hskipPrep : (prv_prepare_roll_metadata
        ({ ctx with result_hold_timer := false } : StateContext)).skip_requested = true := hskip
    have hunf : prv_start_next_die (f + 1) ctx rs =
        ((prv_start_next_die f ctx4 rs1).1, (prv_start_next_die f ctx4 rs1).2.1,
         RollEvent.commitEv value :: (prv_start_next_die f ctx4 rs1).2.2) := by
      simp only [prv_start_next_die, hmodel1, eq_self_iff_true, if_true]
      rw [if_pos hskipPrep]
    have hstep := commit_step ctx.model value hinv hyes
    obtain ⟨ha, hb, hcanim, hd, he⟩ := ih f ctx4 rs1
      (by rw [h4model]; omega)
      (by rw [h4model]; exact hstep.1)
      (by rw [h4state]; exact hstate)
      (by rw [h4skip]; exact hskip)
      (by omega)
    rw [hunf]
    refine ⟨ha, hb, ?_, ?_, ?_⟩
    · rw [hcanim, h4anim]
    · simp [hd]
    · simp [RollEvent.isCommit, he]

/-- Claim C8 (confirmed): a skip requested while Rolling (either while the
result-hold timer is armed between dice, or while the animator is running a
die) resolves every remaining die synchronously — the event trace contains
only commit events, one per die remaining at the moment of the request, and
no roll_anim_start whose stages could fire preview callbacks — and the
state machine reaches Results with the skip flag cleared and no animation
left running. -/
theorem c8_skip_resolves_all (fuel : Nat) (ctx : StateContext) (rs : List Int)
    (hstate : ctx.current_state = AppState.ROLLING)
    (hskip : ctx.skip_requested = false)
    (hinv : RollInv ctx.model)
    (hfuel : remainingDice ctx.model < fuel)
    (hmode : (ctx.result_hold_timer = true ∧ ctx.anim_running = false) ∨
      (ctx.result_hold_timer = false ∧ ctx.anim_running = true ∧
        model_has_roll_remaining ctx.model = true)) :
    (prv_set_skip_requested fuel ctx rs).1.current_state = AppState.RESULTS ∧
    (prv_set_skip_requested fuel ctx rs).1.skip_requested = false ∧
    (prv_set_skip_requested fuel ctx rs).1.anim_running = false ∧
    (prv_set_skip_requested fuel ctx rs).2.2.length = remainingDice ctx.model ∧
    (prv_set_skip_requested fuel ctx rs).2.2.all RollEvent.isCommit = true := by
  have h1 : ¬ (ctx.current_state ≠ AppState.ROLLING) := by simp [hstate]
  have h2 : ¬ (ctx.skip_requested = true) := by simp [hskip]
  rcases hmode with ⟨htimer, hanim⟩ | ⟨htimer, hanim, hrem⟩
  · obtain ⟨hLa, hLb, hLc, hLd, hLe⟩ := c8_loop (remainingDice ctx.model) fuel
      ({ ctx with skip_requested := true, result_hold_timer := false }) rs rfl hinv hstate rfl
      hfuel
    have hanimL : (prv_start_next_die fuel
        ({ ctx with skip_requested := true, result_hold_timer := false }) rs).1.anim_running =
        false := by
      rw [hLc]
      exact hanim
    have hunf : prv_set_skip_requested fuel ctx rs =
        prv_start_next_die fuel
          ({ ctx with skip_requested := true, result_hold_timer := false }) rs := by
      simp only [prv_set_skip_requested]
      rw [if_neg h1, if_neg h2, if_pos htimer]
      simp only [hanimL, Bool.false_eq_true, if_false]
    rw [hunf]
    exact ⟨hLa, hLb, hanimL, hLd, hLe⟩
  · have hn1 : 1 ≤ remainingDice ctx.model := remaining_pos ctx.model hinv hrem
    set ctxS : StateContext := { ctx with skip_requested := true } with hS
    set r : Int := (takeRand rs).1 with hr
    set rs1 : List Int := (takeRand rs).2 with hrs1
    set result : Int := prv_random_roll ctxS.anim_sides r with hres
    set ctxP : StateContext := prv_anim_preview ctxS result with hP
    set adjusted : Int := prv_normalize_roll_value ctxP.roll_zero_based ctxP.roll_tens_mode result
      with hadj
    set ctxC : StateContext := prv_commit_result ctxP adjusted with hC
    have hCmodel : ctxC.model = model_commit_roll_result ctx.model adjusted := rfl
    have hCstate : ctxC.current_state = ctx.current_state := rfl
    have hCskip : ctxC.skip_requested = true := rfl
    have hCanim : ctxC.anim_running = ctx.anim_running := rfl
    have hstep := commit_step ctx.model adjusted hinv hrem
    obtain ⟨hLa, hLb, hLc, hLd, hLe⟩ := c8_loop (remainingDice ctx.model - 1) fuel ctxC rs1
      (by rw [hCmodel]; omega)
      (by rw [hCmodel]; exact hstep.1)
      (by rw [hCstate]; exact hstate)
      hCskip
      (by omega)
    have hanimS : ctxS.anim_running = true := hanim
    have htimerS : ¬ (ctxS.result_hold_timer = true) := by
      simp [hS, htimer]
    have hunf : prv_set_skip_requested fuel ctx rs =
        ({ (prv_start_next_die fuel ctxC rs1).1 with anim_running := false },
         (prv_start_next_die fuel ctxC rs1).2.1,
         RollEvent.commitEv adjusted :: (prv_start_next_die fuel ctxC rs1).2.2) := by
      simp only [prv_set_skip_requested]
      rw [if_neg h1, if_neg h2]
      simp only [← hS]
      rw [if_neg htimerS, if_pos hanimS]
      simp only [roll_anim_skip]
      rw [if_pos hanimS]
      simp only [← hr, ← hrs1, ← hres, ← hP, prv_anim_complete, ← hadj, ← hC,
        prv_after_result]
      rw [if_pos hCskip]
      simp
    rw [hunf]
    refine ⟨?_, ?_, ?_, ?_, ?_⟩
    · exact hLa
    · exact hLb
    · rfl
    · simp only [List.length_cons, hLd]
      omega
    · simp only [List.all_cons, hLe]
      rfl

/-- Witness for c8_skip_resolves_all: skip requested while the first of two
d6 dice is animating; both remaining dice resolve and the roll ends in
Results. -/
theorem c8_witness :
    (twoDiceRollingCtx.current_state = AppState.ROLLING ∧
      twoDiceRollingCtx.skip_requested = false ∧
      RollInv twoDiceRollingCtx.model ∧
      remainingDice twoDiceRollingCtx.model < 3 ∧
      (twoDiceRollingCtx.result_hold_timer = false ∧ twoDiceRollingCtx.anim_running = true ∧
        model_has_roll_remaining twoDiceRollingCtx.model = true)) ∧
    ((prv_set_skip_requested 3 twoDiceRollingCtx [1, 2]).1.current_state = AppState.RESULTS ∧
      (prv_set_skip_requested 3 twoDiceRollingCtx [1, 2]).1.skip_requested = false ∧
      (prv_set_skip_requested 3 twoDiceRollingCtx [1, 2]).1.anim_running = false ∧
      (prv_set_skip_requested 3 twoDiceRollingCtx [1, 2]).2.2.length =
        remainingDice twoDiceRollingCtx.model ∧
      (prv_set_skip_requested 3 twoDiceRollingCtx [1, 2]).2.2.all RollEvent.isCommit = true) :=
  ⟨⟨by decide, by decide, by decide, by decide, by decide⟩,
    c8_skip_resolves_all 3 twoDiceRollingCtx [1, 2] (by decide) (by decide) (by decide)
      (by decide) (Or.inr (by decide))⟩
